import Mathlib

/-!
Verification of the Enterprise Project Analytics Dashboard core.

A shallow embedding of the credit-weight scoring engine of the
dashboard: the weight rebalancer (`src/core/admin.py`,
`MetricAdmin.rebalance_credits`), the project scorecard engine
(`src/core/views.py`, `project_scorecard_view`) and the leaderboard
per-project scoring (`src/core/views.py`, `leaderboard_view`).

Numeric fields are modelled as rationals (`ℚ`): Python floats carry out
exact arithmetic on the small decimal values involved here, and every
stated tolerance claim becomes an exact identity over `ℚ`.
The database is modelled as plain lists of records; a Django queryset
`filter` becomes `List.filter`, `first()` becomes `List.find?`, and an
`update(...)` becomes a `List.map` that rewrites the matching rows.
-/

/-- A user group (role), scoped to a department.  Modelled from the spec:
`core/models.py` is not part of the sources; §3 of the design document
describes UserGroup as a named role scoped to a Department.  Departments
are identified by a numeric id. -/
structure UserGroup where
  id : Nat
  name : String
  department : Nat
  deriving DecidableEq

/-- A scored attribute definition.  Modelled from the spec (§3) and from
its uses in `admin.py` and `views.py`: label, field identifier,
department, stage ("Pre" or "Post"), default threshold, a single credit
weight with a manual/auto flag, and the set of user groups (by id) it is
visible to. -/
structure Metric where
  id : Nat
  label : String
  field_name : String
  department : Nat
  stage : String
  default_threshold : ℚ
  credit_weight : ℚ
  is_manual_credit : Bool
  visible_to_groups : List Nat
  deriving DecidableEq

/-- A Metric × UserGroup join row carrying a scoring factor.  Modelled
from the spec (§3) and its uses in `views.py` (`metricweight_set`,
`.factor`). -/
structure MetricWeight where
  metric_id : Nat
  user_group : Nat
  factor : ℚ
  deriving DecidableEq

/-- The subject being scored: free-text stage plus one numeric attribute
per metric field name (`getattr(project, metric.field_name, 0.0)` is
modelled as an association-list lookup defaulting to 0).  Modelled from
the spec (§3) and the attribute accesses in `views.py`. -/
structure Project where
  project_code : String
  stage : String
  attrs : List (String × ℚ)
  deriving DecidableEq

/-- Source: `getattr(project, field, 0.0)` — numeric attribute lookup with
default 0. -/
def Project.attr (p : Project) (f : String) : ℚ :=
  ((p.attrs.find? (fun kv => kv.1 == f)).map Prod.snd).getD 0

/-! ## The weight rebalancer (`MetricAdmin.rebalance_credits`) -/

/-- The "team" of one (department, stage, group) bucket:
`Metric.objects.filter(department=department, stage=stage,
visible_to_groups=group).distinct()` in `admin.py`. -/
def team_metrics (db : List Metric) (d : Nat) (s : String) (g : Nat) : List Metric :=
  db.filter (fun m => m.department == d && m.stage == s && m.visible_to_groups.contains g)

/-- Source: `team_metrics.filter(is_manual_credit=True)`. -/
def manuals (db : List Metric) (d : Nat) (s : String) (g : Nat) : List Metric :=
  (team_metrics db d s g).filter (fun m => m.is_manual_credit)

/-- Source: `team_metrics.filter(is_manual_credit=False)`. -/
def autos (db : List Metric) (d : Nat) (s : String) (g : Nat) : List Metric :=
  (team_metrics db d s g).filter (fun m => !m.is_manual_credit)

/-- Source: `manuals.aggregate(Sum('credit_weight'))['credit_weight__sum'] or 0`. -/
def manual_sum (db : List Metric) (d : Nat) (s : String) (g : Nat) : ℚ :=
  ((manuals db d s g).map (fun m => m.credit_weight)).sum

/-- Source: `new_weight = max(0, remaining_pool / auto_count)` with
`remaining_pool = 100 - manual_sum`. -/
def new_weight (db : List Metric) (d : Nat) (s : String) (g : Nat) : ℚ :=
  max 0 ((100 - manual_sum db d s g) / (autos db d s g).length)

/-- Whether a metric row is hit by `autos.update(credit_weight=...)` for
bucket (d, s, g): it is in the team and not manual. -/
def bucket_auto (d : Nat) (s : String) (g : Nat) (m : Metric) : Bool :=
  !m.is_manual_credit && (m.department == d && m.stage == s && m.visible_to_groups.contains g)

/-- One iteration of the `for group in groups` loop of
`rebalance_credits`: if the bucket has at least one auto metric, set
every auto metric of the bucket to the computed `new_weight`. -/
def rebalance_group (db : List Metric) (d : Nat) (s : String) (g : Nat) : List Metric :=
  if (autos db d s g).length > 0 then
    db.map (fun m => if bucket_auto d s g m then { m with credit_weight := new_weight db d s g } else m)
  else
    db

/-- The loop of `rebalance_credits` over the triggering metric's groups,
re-reading the database on each iteration (each Django query in the loop
body sees the updates of the previous iterations). -/
def run_groups (d : Nat) (s : String) (gs : List Nat) (db : List Metric) : List Metric :=
  gs.foldl (fun acc g => rebalance_group acc d s g) db

/-- Source: `MetricAdmin.rebalance_credits(current_metric)` acting on the metric
table: returns unchanged when the metric is visible to no group,
otherwise runs the per-group rebalancing loop. -/
def rebalance_credits (db : List Metric) (current_metric : Metric) : List Metric :=
  if current_metric.visible_to_groups.isEmpty then db
  else run_groups current_metric.department current_metric.stage current_metric.visible_to_groups db

/-- Total credit weight currently stored over a bucket's team. -/
def team_weight_sum (db : List Metric) (d : Nat) (s : String) (g : Nat) : ℚ :=
  ((team_metrics db d s g).map (fun m => m.credit_weight)).sum

/-! ## String normalization shared by the scoring views -/

/-- Whether `needle` occurs at the head of `hay` (character lists). -/
def isLeading : List Char → List Char → Bool
  | [], _ => true
  | _ :: _, [] => false
  | a :: as, b :: bs => a == b && isLeading as bs

/-- Whether `needle` occurs anywhere inside `hay`: Python's `x in s`. -/
def occursIn (needle : List Char) : List Char → Bool
  | [] => needle.isEmpty
  | b :: bs => isLeading needle (b :: bs) || occursIn needle bs

/-- Source: `str(x).strip().lower()` on a string, as a character list: lowercase
every character, then drop leading and trailing whitespace. -/
def normStage (s : String) : List Char :=
  (((s.toList.map Char.toLower).dropWhile Char.isWhitespace).reverse.dropWhile
    Char.isWhitespace).reverse

/-- Stage normalization of `project_scorecard_view` (views.py:682-683):
`'Post' if any(x in raw_stage for x in ['post', 'exec', 'ops']) else 'Pre'`. -/
def metric_stage_key (stageText : String) : String :=
  if (["post", "exec", "ops"].map String.toList).any (fun x => occursIn x (normStage stageText))
  then "Post" else "Pre"

/-- Stage normalization of `leaderboard_view` (views.py:807-808):
`'Post' if any(x in raw_stage for x in ['post', 'exec', 'ops', 'handover']) else 'Pre'`. -/
def current_stage (stageText : String) : String :=
  if (["post", "exec", "ops", "handover"].map String.toList).any
      (fun x => occursIn x (normStage stageText))
  then "Post" else "Pre"

/-! ## The scorecard engine (`project_scorecard_view`) -/

/-- Source: `metric.metricweight_set.filter(user_group=user_group).first()`. -/
def weight_obj (weights : List MetricWeight) (m : Metric) (g : UserGroup) : Option MetricWeight :=
  weights.find? (fun w => w.metric_id == m.id && w.user_group == g.id)

/-- Source: `raw_progress = (current_value / threshold) if threshold > 0 else
(1.0 if current_value > 0 else 0.0)` — identical in views.py:696 and
views.py:818-819. -/
def raw_progress (current_value threshold : ℚ) : ℚ :=
  if threshold > 0 then current_value / threshold
  else if current_value > 0 then 1 else 0

/-- Source: `capped_progress = min(raw_progress, 1.0)`. -/
def capped_progress (current_value threshold : ℚ) : ℚ :=
  min (raw_progress current_value threshold) 1

/-- Python's `round(x, 1)`, modelled with round-half-up to a rational
with denominator 10 (the exact tie-breaking convention is irrelevant to
every claim below; both scoring paths use the same function). -/
def round1 (x : ℚ) : ℚ := (round (10 * x) : ℤ) / 10

/-- The scorecard's first loop (views.py:690-702): the included metrics,
those of the stage/department query whose weight entry for the group
exists with `factor > 0`, paired with that factor.  The metric queryset
`Metric.objects.filter(stage=..., department=...)` keeps table order. -/
def included_metrics (metrics : List Metric) (weights : List MetricWeight)
    (g : UserGroup) (stageKey : String) : List (Metric × ℚ) :=
  (metrics.filter (fun m => m.stage == stageKey && m.department == g.department)).filterMap
    (fun m => match weight_obj weights m g with
      | some w => if w.factor > 0 then some (m, w.factor) else none
      | none => none)

/-- Source: `total_factor_sum` accumulated in the scorecard's first loop. -/
def total_factor_sum (metrics : List Metric) (weights : List MetricWeight)
    (g : UserGroup) (stageKey : String) : ℚ :=
  ((included_metrics metrics weights g stageKey).map Prod.snd).sum

/-- One included metric's `points_earned` (views.py:709-710):
`capped_progress * (factor / total_factor_sum * 100)` with
`target_pct = 0` when `total_factor_sum` is not positive. -/
def points_earned (p : Project) (total : ℚ) (mw : Metric × ℚ) : ℚ :=
  capped_progress (p.attr mw.1.field_name) mw.1.default_threshold *
    (if total > 0 then mw.2 / total * 100 else 0)

/-- Source: `earned_score_total`: the un-rounded scorecard total of
`project_scorecard_view` for one project and user group. -/
def earned_score_total (metrics : List Metric) (weights : List MetricWeight)
    (g : UserGroup) (p : Project) : ℚ :=
  let stageKey := metric_stage_key p.stage
  let total := total_factor_sum metrics weights g stageKey
  ((included_metrics metrics weights g stageKey).map (points_earned p total)).sum

/-- Source: `project_total = round(earned_score_total, 1)` (views.py:724). -/
def project_total (metrics : List Metric) (weights : List MetricWeight)
    (g : UserGroup) (p : Project) : ℚ :=
  round1 (earned_score_total metrics weights g p)

/-! ## Role resolution and the view outcome (`project_scorecard_view`) -/

/-- Source: `raw_role_param.split(' - ')[-1] if ' - ' in raw_role_param else
raw_role_param` (views.py:667). -/
def search_term (raw_role_param : String) : String :=
  if occursIn " - ".toList raw_role_param.toList
  then (raw_role_param.splitOn " - ").getLastD raw_role_param
  else raw_role_param

/-- Source: `UserGroup.objects.filter(name__icontains=search_term).first()`:
case-insensitive substring match against group names, first match in
table order. -/
def find_user_group (groups : List UserGroup) (term : String) : Option UserGroup :=
  groups.find? (fun g => occursIn (term.toList.map Char.toLower) (g.name.toList.map Char.toLower))

/-- Outcome of `project_scorecard_view` after the project is resolved: a
distinct "role not found" render, or a computed scorecard. -/
inductive ScorecardResult where
  | groupNotFound (role : String)
  | ok (group : UserGroup) (total : ℚ)
  deriving DecidableEq

/-- The outcome-relevant skeleton of `project_scorecard_view`
(views.py:660-727): resolve the role to a user group; if none matches,
render the error template with `Role '...' not found.`; otherwise
compute and render the scorecard. -/
def project_scorecard_view (groups : List UserGroup) (metrics : List Metric)
    (weights : List MetricWeight) (p : Project) (raw_role_param : String) : ScorecardResult :=
  let term := search_term raw_role_param
  match find_user_group groups term with
  | none => .groupNotFound term
  | some g => .ok g (project_total metrics weights g p)

/-! ## The leaderboard's per-project scoring (`leaderboard_view`) -/

/-- The leaderboard's `valid_metrics` (views.py:784-792): metrics having
some weight row for the group with positive factor (the queryset join
filter), then re-checked through `first()`; each kept metric contributes
its field, factor, stage and threshold. -/
def valid_metrics (metrics : List Metric) (weights : List MetricWeight)
    (g : UserGroup) : List (Metric × ℚ) :=
  (metrics.filter (fun m =>
      weights.any (fun w => w.metric_id == m.id && w.user_group == g.id && w.factor > 0))).filterMap
    (fun m => match weight_obj weights m g with
      | some w => if w.factor > 0 then some (m, w.factor) else none
      | none => none)

/-- Source: `stage_totals[stage]`: the shared denominator, summed once per role
over all valid metrics of that stage (views.py:791). -/
def stage_totals (metrics : List Metric) (weights : List MetricWeight)
    (g : UserGroup) (stageKey : String) : ℚ :=
  (((valid_metrics metrics weights g).filter (fun mw => mw.1.stage == stageKey)).map Prod.snd).sum

/-- The leaderboard's un-rounded per-project score (views.py:811-822):
0 when `stage_totals` for the project's stage is not positive, else the
capped-progress formula with the shared denominator. -/
def leaderboard_raw_score (metrics : List Metric) (weights : List MetricWeight)
    (g : UserGroup) (p : Project) : ℚ :=
  let stageKey := current_stage p.stage
  let total_possible := stage_totals metrics weights g stageKey
  if total_possible > 0 then
    (((valid_metrics metrics weights g).filter (fun mw => mw.1.stage == stageKey)).map
      (fun mw => capped_progress (p.attr mw.1.field_name) mw.1.default_threshold *
        (mw.2 / total_possible * 100))).sum
  else 0

/-- Source: `project_score = round(project_score, 1)` (views.py:824). -/
def leaderboard_project_score (metrics : List Metric) (weights : List MetricWeight)
    (g : UserGroup) (p : Project) : ℚ :=
  round1 (leaderboard_raw_score metrics weights g p)

/-! ## Analysis helpers for the rebalancer

`rebalance_credits` iterates bucket updates whose computed weights depend
only on data the updates never change (manual weights, visibility,
department, stage).  The helpers below name one bucket update
(`applyW`), the last group of a list whose bucket holds a given metric
(`pickLast`, `lastMatch`), and the closed form of a full run
(`final_metric`). -/

/-- Overwrite the credit weight of a metric row. -/
def set_weight (w : ℚ) (m : Metric) : Metric := { m with credit_weight := w }

/-- One bucket update with an externally supplied weight: the
`autos.update(credit_weight=new_weight)` write of `admin.py`. -/
def applyW (d : Nat) (s : String) (g : Nat) (w : ℚ) (db : List Metric) : List Metric :=
  db.map (fun m => if bucket_auto d s g m then set_weight w m else m)

/-- The last element of `gs` contained in `vis`, if any. -/
def pickLast (vis : List Nat) : List Nat → Option Nat
  | [] => none
  | g :: gs =>
    match pickLast vis gs with
    | some g' => some g'
    | none => if vis.contains g then some g else none

/-- For an auto metric of department `d` and stage `s`, the last group of
`gs` whose bucket update rewrites it; `none` for every other metric. -/
def lastMatch (d : Nat) (s : String) (gs : List Nat) (m : Metric) : Option Nat :=
  if !m.is_manual_credit && (m.department == d && m.stage == s) then
    pickLast m.visible_to_groups gs
  else none

/-- Closed form of a full rebalancing run over the group list `gs`: a
metric rewritten by at least one bucket update ends up holding the
weight computed (against the initial table `db`) for the **last** group
of `gs` whose bucket holds it; every other metric is unchanged. -/
def final_metric (db : List Metric) (d : Nat) (s : String) (gs : List Nat) (m : Metric) : Metric :=
  match lastMatch d s gs m with
  | some g => { m with credit_weight := new_weight db d s g }
  | none => m

/-- A metric-table transformation that touches nothing but credit
weights. -/
def weight_only (F : Metric → Metric) : Prop :=
  ∀ m, F m = { m with credit_weight := (F m).credit_weight }

/-- The team of a bucket as the frozen claim C3 reads, against the
spec's §3 data model: the metrics of the same (department, stage) that
have a `MetricWeight` row for the group. -/
def spec_team_by_weight (db : List Metric) (weights : List MetricWeight)
    (d : Nat) (s : String) (g : Nat) : List Metric :=
  db.filter (fun m => m.department == d && m.stage == s &&
    weights.any (fun w => w.metric_id == m.id && w.user_group == g))

/-! ## Concrete configurations used by counterexamples and witnesses -/

/-- Scenario-2 bucket: one manual metric at 30 and two autos, all
visible to group 1 of department 0, stage Pre. -/
def bal1 : Metric := ⟨0, "Quality Audit", "quality_audit", 0, "Pre", 10, 30, true, [1]⟩

/-- Auto metric of the scenario-2 bucket. -/
def bal2 : Metric := ⟨1, "Site Visits", "site_visits", 0, "Pre", 10, 0, false, [1]⟩

/-- Second auto metric of the scenario-2 bucket. -/
def bal3 : Metric := ⟨2, "Client Calls", "client_calls", 0, "Pre", 10, 7, false, [1]⟩

/-- Scenario-3 bucket, first manual metric (weight 70, within [0,100]). -/
def ov1 : Metric := ⟨0, "Quality Audit", "quality_audit", 0, "Pre", 10, 70, true, [1]⟩

/-- Scenario-3 bucket, second manual metric (weight 50, within [0,100]). -/
def ov2 : Metric := ⟨1, "Site Visits", "site_visits", 0, "Pre", 10, 50, true, [1]⟩

/-- Scenario-3 bucket, the single auto metric. -/
def ov3 : Metric := ⟨2, "Client Calls", "client_calls", 0, "Pre", 10, 33, false, [1]⟩

/-- An auto metric shared between groups 1 and 2 (department 0, stage
Pre). -/
def sh1 : Metric := ⟨0, "Shared KPI", "shared_kpi", 0, "Pre", 10, 0, false, [1, 2]⟩

/-- An auto metric visible to group 1 only. -/
def sh2 : Metric := ⟨1, "Solo KPI", "solo_kpi", 0, "Pre", 10, 0, false, [1]⟩

/-- A manual metric (weight 40) visible to group 2 only. -/
def sh3 : Metric := ⟨2, "Fixed KPI", "fixed_kpi", 0, "Pre", 10, 40, true, [2]⟩

/-- A metric visible to no group but carrying a MetricWeight row for
group 1 in `w3x` — it has a weight entry yet is not collected into any
team by `rebalance_credits`. -/
def hidden1 : Metric := ⟨0, "Hidden KPI", "hidden_kpi", 0, "Pre", 10, 25, false, []⟩

/-- A MetricWeight row for `hidden1` and group 1. -/
def w3x : MetricWeight := ⟨0, 1, 50⟩

/-- Group "ID" of department 0, used by the scoring examples. -/
def gID : UserGroup := ⟨1, "Design - ID", 0⟩

/-- Metric of the group's own department, weighted 50 for group 1. -/
def cm1 : Metric := ⟨0, "Moodboard", "moodboard", 0, "Pre", 10, 0, false, [1]⟩

/-- Metric of a foreign department (5), also weighted 50 for group 1. -/
def cm2 : Metric := ⟨1, "Ops Review", "ops_review", 5, "Pre", 10, 0, false, [1]⟩

/-- The two weight rows of the C4 configuration: one row per
(metric, group) pair, so the weight configuration is unique per group. -/
def cw4 : List MetricWeight := [⟨0, 1, 50⟩, ⟨1, 1, 50⟩]

/-- Project hitting the threshold of `cm1` exactly and scoring 0 on
`cm2`; its stage text "Design" normalizes to Pre in both views. -/
def proj4 : Project := ⟨"PRJ-01", "Design", [("moodboard", 10)]⟩

/-- Single-metric configuration for the C4 witness. -/
def wm1 : Metric := ⟨0, "Moodboard", "moodboard", 0, "Pre", 10, 0, false, [1]⟩

/-- Weight row of the C4 witness configuration. -/
def ww4 : List MetricWeight := [⟨0, 1, 60⟩]

/-- Project of the C4 witness: halfway to the threshold of `wm1`. -/
def projW : Project := ⟨"PRJ-02", "Initial Login", [("moodboard", 5)]⟩

/-! ## Rebalancer lemmas -/

theorem autos_eq_filter (db : List Metric) (d : Nat) (s : String) (g : Nat) :
    autos db d s g = db.filter (bucket_auto d s g) := by
  unfold autos team_metrics bucket_auto
  rw [List.filter_filter]

theorem weight_only_applyW (d : Nat) (s : String) (g : Nat) (w : ℚ) :
    weight_only (fun m => if bucket_auto d s g m then set_weight w m else m) := by
  intro m
  by_cases h : bucket_auto d s g m <;> simp [h, set_weight]

theorem weight_only_final (db : List Metric) (d : Nat) (s : String) (gs : List Nat) :
    weight_only (final_metric db d s gs) := by
  intro m
  unfold final_metric
  cases lastMatch d s gs m <;> rfl

theorem applyW_fixes_manuals (d : Nat) (s : String) (g : Nat) (w : ℚ) (m : Metric)
    (h : m.is_manual_credit = true) :
    (if bucket_auto d s g m then set_weight w m else m) = m := by
  simp [bucket_auto, h]

theorem final_fixes_manuals (db : List Metric) (d : Nat) (s : String) (gs : List Nat)
    (m : Metric) (h : m.is_manual_credit = true) :
    final_metric db d s gs m = m := by
  unfold final_metric lastMatch
  simp [h]

theorem team_metrics_map (F : Metric → Metric) (hF : weight_only F)
    (db : List Metric) (d : Nat) (s : String) (g : Nat) :
    team_metrics (db.map F) d s g = (team_metrics db d s g).map F := by
  unfold team_metrics
  rw [List.filter_map]
  congr 1
  apply List.filter_congr
  intro m _
  rw [Function.comp_apply, hF m]

theorem manuals_map (F : Metric → Metric) (hF : weight_only F)
    (db : List Metric) (d : Nat) (s : String) (g : Nat) :
    manuals (db.map F) d s g = (manuals db d s g).map F := by
  unfold manuals
  rw [team_metrics_map F hF, List.filter_map]
  congr 1
  apply List.filter_congr
  intro m _
  rw [Function.comp_apply, hF m]

theorem autos_map (F : Metric → Metric) (hF : weight_only F)
    (db : List Metric) (d : Nat) (s : String) (g : Nat) :
    autos (db.map F) d s g = (autos db d s g).map F := by
  unfold autos
  rw [team_metrics_map F hF, List.filter_map]
  congr 1
  apply List.filter_congr
  intro m _
  rw [Function.comp_apply, hF m]

theorem manuals_map_id (F : Metric → Metric) (hF : weight_only F)
    (hfix : ∀ m, m.is_manual_credit = true → F m = m)
    (db : List Metric) (d : Nat) (s : String) (g : Nat) :
    manuals (db.map F) d s g = manuals db d s g := by
  rw [manuals_map F hF]
  calc (manuals db d s g).map F = (manuals db d s g).map (fun m => m) := by
        apply List.map_congr_left
        intro m hm
        exact hfix m (List.mem_filter.mp hm).2
    _ = manuals db d s g := List.map_id' _

theorem manual_sum_map (F : Metric → Metric) (hF : weight_only F)
    (hfix : ∀ m, m.is_manual_credit = true → F m = m)
    (db : List Metric) (d : Nat) (s : String) (g : Nat) :
    manual_sum (db.map F) d s g = manual_sum db d s g := by
  unfold manual_sum
  rw [manuals_map_id F hF hfix]

theorem new_weight_map (F : Metric → Metric) (hF : weight_only F)
    (hfix : ∀ m, m.is_manual_credit = true → F m = m)
    (db : List Metric) (d : Nat) (s : String) (g : Nat) :
    new_weight (db.map F) d s g = new_weight db d s g := by
  unfold new_weight
  rw [manual_sum_map F hF hfix, autos_map F hF, List.length_map]

theorem rebalance_group_eq_applyW (db : List Metric) (d : Nat) (s : String) (g : Nat) :
    rebalance_group db d s g = applyW d s g (new_weight db d s g) db := by
  unfold rebalance_group applyW
  split
  · rfl
  · rename_i hlen
    have hnil : autos db d s g = [] := by
      rcases h : autos db d s g with _ | ⟨a, l⟩
      · rfl
      · rw [h] at hlen; simp at hlen
    have hall : ∀ m ∈ db, bucket_auto d s g m = false := by
      intro m hm
      by_contra hne
      have : bucket_auto d s g m = true := by
        cases h : bucket_auto d s g m
        · exact absurd h hne
        · rfl
      have : m ∈ autos db d s g := by
        rw [autos_eq_filter]
        exact List.mem_filter.mpr ⟨hm, this⟩
      rw [hnil] at this
      exact absurd this (List.not_mem_nil m)
    symm
    calc db.map (fun m => if bucket_auto d s g m then set_weight (new_weight db d s g) m else m)
        = db.map (fun m => m) := by
          apply List.map_congr_left
          intro m hm
          rw [hall m hm]
          rfl
      _ = db := List.map_id' db

theorem lastMatch_set_weight (d : Nat) (s : String) (gs : List Nat) (w : ℚ) (m : Metric) :
    lastMatch d s gs (set_weight w m) = lastMatch d s gs m := rfl

theorem final_metric_nil (db : List Metric) (d : Nat) (s : String) (m : Metric) :
    final_metric db d s [] m = m := by
  unfold final_metric lastMatch
  cases h : (!m.is_manual_credit && (m.department == d && m.stage == s)) <;>
    simp [h, pickLast]

theorem pickLast_cons (vis : List Nat) (g : Nat) (gs : List Nat) :
    pickLast vis (g :: gs) = match pickLast vis gs with
      | some g' => some g'
      | none => if vis.contains g then some g else none := rfl

theorem lastMatch_guard_true (d : Nat) (s : String) (gs : List Nat) (m : Metric)
    (hguard : (!m.is_manual_credit && (m.department == d && m.stage == s)) = true) :
    lastMatch d s gs m = pickLast m.visible_to_groups gs := by
  unfold lastMatch
  rw [hguard]
  rfl

theorem lastMatch_guard_false (d : Nat) (s : String) (gs : List Nat) (m : Metric)
    (hguard : (!m.is_manual_credit && (m.department == d && m.stage == s)) = false) :
    lastMatch d s gs m = none := by
  unfold lastMatch
  rw [hguard]
  rfl

theorem final_step (db : List Metric) (d : Nat) (s : String) (g : Nat) (gs : List Nat)
    (m : Metric) :
    final_metric db d s gs (if bucket_auto d s g m then set_weight (new_weight db d s g) m else m)
      = final_metric db d s (g :: gs) m := by
  cases hguard : (!m.is_manual_credit && (m.department == d && m.stage == s)) with
  | false =>
    have hb : bucket_auto d s g m = false := by
      unfold bucket_auto
      revert hguard
      cases (!m.is_manual_credit) <;> cases (m.department == d) <;> cases (m.stage == s) <;> simp
    rw [hb]
    simp only [Bool.false_eq_true, if_false]
    unfold final_metric
    rw [lastMatch_guard_false d s gs m hguard, lastMatch_guard_false d s (g :: gs) m hguard]
  | true =>
    cases hcont : m.visible_to_groups.contains g with
    | false =>
      have hb : bucket_auto d s g m = false := by
        unfold bucket_auto
        rw [hcont]
        simp
      rw [hb]
      simp only [Bool.false_eq_true, if_false]
      unfold final_metric
      rw [lastMatch_guard_true d s gs m hguard, lastMatch_guard_true d s (g :: gs) m hguard,
        pickLast_cons, hcont]
      cases hp : pickLast m.visible_to_groups gs <;> simp
    | true =>
      have hb : bucket_auto d s g m = true := by
        simp only [Bool.and_eq_true] at hguard
        unfold bucket_auto
        rw [hguard.1, hguard.2.1, hguard.2.2, hcont]
        rfl
      rw [hb]
      simp only [if_true]
      unfold final_metric
      rw [lastMatch_set_weight, lastMatch_guard_true d s gs m hguard,
        lastMatch_guard_true d s (g :: gs) m hguard, pickLast_cons, hcont]
      cases hp : pickLast m.visible_to_groups gs <;> simp [set_weight]

theorem run_groups_eq_map (d : Nat) (s : String) (gs : List Nat) (db : List Metric) :
    run_groups d s gs db = db.map (final_metric db d s gs) := by
  induction gs generalizing db with
  | nil =>
    show db = db.map (final_metric db d s [])
    calc db = db.map (fun m => m) := (List.map_id' db).symm
      _ = db.map (final_metric db d s []) := by
        apply List.map_congr_left
        intro m _
        exact (final_metric_nil db d s m).symm
  | cons g gs ih =>
    show run_groups d s gs (rebalance_group db d s g) = _
    rw [rebalance_group_eq_applyW]
    have happ : applyW d s g (new_weight db d s g) db
        = db.map (fun m => if bucket_auto d s g m then set_weight (new_weight db d s g) m else m) := rfl
    rw [happ, ih]
    have hWO : weight_only (fun m => if bucket_auto d s g m then set_weight (new_weight db d s g) m else m) :=
      weight_only_applyW d s g (new_weight db d s g)
    have hFIX : ∀ m, m.is_manual_credit = true →
        (if bucket_auto d s g m then set_weight (new_weight db d s g) m else m) = m :=
      applyW_fixes_manuals d s g (new_weight db d s g)
    have hsame : ∀ m, final_metric
        (db.map (fun m => if bucket_auto d s g m then set_weight (new_weight db d s g) m else m))
        d s gs m = final_metric db d s gs m := by
      intro m
      unfold final_metric
      cases hl : lastMatch d s gs m with
      | none => rfl
      | some g' =>
        simp only [new_weight_map _ hWO hFIX db d s g']
    calc (db.map (fun m => if bucket_auto d s g m then set_weight (new_weight db d s g) m else m)).map
          (final_metric (db.map (fun m => if bucket_auto d s g m then set_weight (new_weight db d s g) m else m)) d s gs)
        = (db.map (fun m => if bucket_auto d s g m then set_weight (new_weight db d s g) m else m)).map
          (final_metric db d s gs) := by
          apply List.map_congr_left
          intro m _
          exact hsame m
      _ = db.map (fun m => final_metric db d s gs
            (if bucket_auto d s g m then set_weight (new_weight db d s g) m else m)) := by
          rw [List.map_map]
          rfl
      _ = db.map (final_metric db d s (g :: gs)) := by
          apply List.map_congr_left
          intro m _
          exact final_step db d s g gs m

theorem rebalance_credits_eq_map (db : List Metric) (cm : Metric) :
    rebalance_credits db cm
      = db.map (final_metric db cm.department cm.stage cm.visible_to_groups) := by
  unfold rebalance_credits
  split
  · rename_i hemp
    have hnil : cm.visible_to_groups = [] := List.isEmpty_iff.mp hemp
    rw [hnil]
    calc db = db.map (fun m => m) := (List.map_id' db).symm
      _ = db.map (final_metric db cm.department cm.stage []) := by
        apply List.map_congr_left
        intro m _
        exact (final_metric_nil db cm.department cm.stage m).symm
  · exact run_groups_eq_map cm.department cm.stage cm.visible_to_groups db

theorem sum_map_filter_split {α : Type} (l : List α) (p : α → Bool) (h : α → ℚ) :
    (l.map h).sum
      = ((l.filter p).map h).sum + ((l.filter (fun a => !p a)).map h).sum := by
  induction l with
  | nil => simp
  | cons a l ih =>
    cases hp : p a <;> simp [List.filter_cons, hp, ih] <;> ring

theorem sum_map_const_of {α : Type} (l : List α) (f : α → ℚ) (c : ℚ)
    (h : ∀ x ∈ l, f x = c) : (l.map f).sum = l.length * c := by
  induction l with
  | nil => simp
  | cons a l ih =>
    have ha : f a = c := h a (List.mem_cons_self a l)
    have hl : ∀ x ∈ l, f x = c := fun x hx => h x (List.mem_cons_of_mem a hx)
    simp [ha, ih hl]
    ring

theorem team_sum_core (db : List Metric) (cm : Metric) (g : Nat)
    (hms : manual_sum db cm.department cm.stage g ≤ 100)
    (hne : autos db cm.department cm.stage g ≠ [])
    (hlast : ∀ m ∈ autos db cm.department cm.stage g,
      lastMatch cm.department cm.stage cm.visible_to_groups m = some g) :
    team_weight_sum (rebalance_credits db cm) cm.department cm.stage g = 100 := by
  have hWO := weight_only_final db cm.department cm.stage cm.visible_to_groups
  rw [team_weight_sum, rebalance_credits_eq_map, team_metrics_map _ hWO, List.map_map]
  simp only [Function.comp_def]
  rw [sum_map_filter_split (team_metrics db cm.department cm.stage g)
    (fun m => m.is_manual_credit)
    (fun m => (final_metric db cm.department cm.stage cm.visible_to_groups m).credit_weight)]
  have hmansum :
      (((team_metrics db cm.department cm.stage g).filter (fun m => m.is_manual_credit)).map
        (fun m => (final_metric db cm.department cm.stage cm.visible_to_groups m).credit_weight)).sum
      = manual_sum db cm.department cm.stage g := by
    unfold manual_sum manuals
    apply congrArg
    apply List.map_congr_left
    intro m hm
    rw [final_fixes_manuals db cm.department cm.stage cm.visible_to_groups m
      (List.mem_filter.mp hm).2]
  have hautosum :
      (((team_metrics db cm.department cm.stage g).filter (fun m => !m.is_manual_credit)).map
        (fun m => (final_metric db cm.department cm.stage cm.visible_to_groups m).credit_weight)).sum
      = (autos db cm.department cm.stage g).length * new_weight db cm.department cm.stage g := by
    have : ((team_metrics db cm.department cm.stage g).filter (fun m => !m.is_manual_credit))
        = autos db cm.department cm.stage g := rfl
    rw [this]
    apply sum_map_const_of
    intro m hm
    unfold final_metric
    rw [hlast m hm]
  rw [hmansum, hautosum]
  have hn : ((autos db cm.department cm.stage g).length : ℚ) ≠ 0 := by
    have : (autos db cm.department cm.stage g).length ≠ 0 := by
      intro h0
      exact hne (List.length_eq_zero.mp h0)
    exact_mod_cast this
  have hpool : (0:ℚ) ≤ (100 - manual_sum db cm.department cm.stage g)
      / (autos db cm.department cm.stage g).length := by
    apply div_nonneg
    · linarith
    · positivity
  rw [new_weight, max_eq_right hpool, mul_comm, div_mul_cancel₀ _ hn]
  ring

theorem final_idem (db : List Metric) (d : Nat) (s : String) (gs : List Nat) (m : Metric) :
    final_metric db d s gs (final_metric db d s gs m) = final_metric db d s gs m := by
  cases hl : lastMatch d s gs m with
  | none =>
    have h1 : final_metric db d s gs m = m := by
      unfold final_metric
      rw [hl]
    rw [h1]
    exact h1
  | some g =>
    have h1 : final_metric db d s gs m = set_weight (new_weight db d s g) m := by
      unfold final_metric
      rw [hl]
      rfl
    rw [h1]
    have h2 : lastMatch d s gs (set_weight (new_weight db d s g) m) = some g := by
      rw [lastMatch_set_weight, hl]
    unfold final_metric
    rw [h2]
    rfl

/-! ## Scorecard / leaderboard lemmas -/

theorem valid_filter_eq_included (metrics : List Metric) (weights : List MetricWeight)
    (g : UserGroup) (key : String)
    (huniq : ∀ w ∈ weights, ∀ w' ∈ weights,
      w.metric_id = w'.metric_id → w.user_group = w'.user_group → w = w')
    (hdept : ∀ m ∈ metrics, ∀ w ∈ weights,
      w.metric_id = m.id → w.user_group = g.id → 0 < w.factor → m.department = g.department) :
    (valid_metrics metrics weights g).filter (fun mw => mw.1.stage == key)
      = included_metrics metrics weights g key := by
  unfold valid_metrics included_metrics
  rw [List.filter_filterMap, List.filterMap_filter, List.filterMap_filter]
  apply List.filterMap_congr
  intro m hm
  cases hw : weight_obj weights m g with
  | none =>
    have hq : (weights.any (fun w => w.metric_id == m.id && w.user_group == g.id
        && decide (w.factor > 0))) = false := by
      cases hqq : (weights.any (fun w => w.metric_id == m.id && w.user_group == g.id
          && decide (w.factor > 0)))
      · rfl
      · exfalso
        rcases List.any_eq_true.mp hqq with ⟨w, hwmem, hwp⟩
        simp only [Bool.and_eq_true] at hwp
        have := List.find?_eq_none.mp hw w hwmem
        simp only [Bool.and_eq_true] at this
        exact this ⟨hwp.1.1, hwp.1.2⟩
    rw [hq]
    simp
  | some w =>
    have hwp := List.find?_some hw
    have hwmem := List.mem_of_find?_eq_some hw
    simp only [Bool.and_eq_true, beq_iff_eq] at hwp
    by_cases hfac : 0 < w.factor
    · have hq : (weights.any (fun w => w.metric_id == m.id && w.user_group == g.id
          && decide (w.factor > 0))) = true := by
        apply List.any_eq_true.mpr
        exact ⟨w, hwmem, by simp [hwp.1, hwp.2, hfac]⟩
      have hd : m.department = g.department := hdept m hm w hwmem hwp.1 hwp.2 hfac
      rw [hq]
      cases hs : (m.stage == key) with
      | false => simp [hs, hd, hfac, Option.filter]
      | true => simp [hs, hd, hfac, Option.filter]
    · have hq : (weights.any (fun w => w.metric_id == m.id && w.user_group == g.id
          && decide (w.factor > 0))) = false := by
        cases hqq : (weights.any (fun w => w.metric_id == m.id && w.user_group == g.id
            && decide (w.factor > 0)))
        · rfl
        · exfalso
          rcases List.any_eq_true.mp hqq with ⟨w', hwmem', hwp'⟩
          simp only [Bool.and_eq_true, beq_iff_eq, decide_eq_true_eq] at hwp'
          have : w' = w := huniq w' hwmem' w hwmem (hwp'.1.1.trans hwp.1.symm)
            (hwp'.1.2.trans hwp.2.symm)
          rw [this] at hwp'
          exact hfac hwp'.2
      rw [hq]
      simp [hfac]

theorem raw_scores_agree (metrics : List Metric) (weights : List MetricWeight)
    (g : UserGroup) (p : Project)
    (huniq : ∀ w ∈ weights, ∀ w' ∈ weights,
      w.metric_id = w'.metric_id → w.user_group = w'.user_group → w = w')
    (hdept : ∀ m ∈ metrics, ∀ w ∈ weights,
      w.metric_id = m.id → w.user_group = g.id → 0 < w.factor → m.department = g.department)
    (hstage : metric_stage_key p.stage = current_stage p.stage) :
    leaderboard_raw_score metrics weights g p = earned_score_total metrics weights g p := by
  simp only [leaderboard_raw_score, earned_score_total]
  rw [← hstage]
  rw [valid_filter_eq_included metrics weights g (metric_stage_key p.stage) huniq hdept]
  unfold stage_totals
  rw [valid_filter_eq_included metrics weights g (metric_stage_key p.stage) huniq hdept]
  show (if total_factor_sum metrics weights g (metric_stage_key p.stage) > 0 then _ else 0) = _
  by_cases htot : total_factor_sum metrics weights g (metric_stage_key p.stage) > 0
  · rw [if_pos htot]
    apply congrArg
    apply List.map_congr_left
    intro mw _
    unfold points_earned
    rw [if_pos htot]
    rfl
  · rw [if_neg htot]
    symm
    rw [sum_map_const_of _ _ 0]
    · ring
    · intro mw _
      unfold points_earned
      rw [if_neg htot]
      ring

theorem raw_progress_nonneg (v t : ℚ) (hv : 0 ≤ v) : 0 ≤ raw_progress v t := by
  unfold raw_progress
  split
  · rename_i ht
    exact div_nonneg hv (le_of_lt ht)
  · split
    · norm_num
    · norm_num

theorem capped_progress_le_one (v t : ℚ) : capped_progress v t ≤ 1 := min_le_right _ _

theorem capped_progress_nonneg (v t : ℚ) (hv : 0 ≤ v) : 0 ≤ capped_progress v t :=
  le_min (raw_progress_nonneg v t hv) zero_le_one

theorem included_factor_pos (metrics : List Metric) (weights : List MetricWeight)
    (g : UserGroup) (key : String) :
    ∀ mw ∈ included_metrics metrics weights g key, 0 < mw.2 := by
  intro mw hmw
  unfold included_metrics at hmw
  rcases List.mem_filterMap.mp hmw with ⟨m, _, heq⟩
  split at heq
  · split at heq
    · rename_i hfac
      cases heq
      exact hfac
    · cases heq
  · cases heq

theorem total_factor_nonneg (metrics : List Metric) (weights : List MetricWeight)
    (g : UserGroup) (key : String) :
    0 ≤ total_factor_sum metrics weights g key := by
  unfold total_factor_sum
  apply List.sum_nonneg
  intro x hx
  rcases List.mem_map.mp hx with ⟨mw, hmw, rfl⟩
  exact le_of_lt (included_factor_pos metrics weights g key mw hmw)

theorem earned_total_bounds (metrics : List Metric) (weights : List MetricWeight)
    (g : UserGroup) (p : Project) (hattr : ∀ f, 0 ≤ p.attr f) :
    0 ≤ earned_score_total metrics weights g p ∧ earned_score_total metrics weights g p ≤ 100 := by
  simp only [earned_score_total]
  constructor
  · apply List.sum_nonneg
    intro x hx
    rcases List.mem_map.mp hx with ⟨mw, hmw, rfl⟩
    unfold points_earned
    apply mul_nonneg (capped_progress_nonneg _ _ (hattr _))
    split
    · rename_i htot
      have := included_factor_pos metrics weights g (metric_stage_key p.stage) mw hmw
      positivity
    · exact le_refl 0
  · calc ((included_metrics metrics weights g (metric_stage_key p.stage)).map
          (points_earned p (total_factor_sum metrics weights g (metric_stage_key p.stage)))).sum
        ≤ ((included_metrics metrics weights g (metric_stage_key p.stage)).map
          (fun mw => if total_factor_sum metrics weights g (metric_stage_key p.stage) > 0
            then mw.2 / total_factor_sum metrics weights g (metric_stage_key p.stage) * 100
            else 0)).sum := by
          apply List.sum_le_sum
          intro mw hmw
          unfold points_earned
          split
          · rename_i htot
            apply mul_le_of_le_one_left _ (capped_progress_le_one _ _)
            have := included_factor_pos metrics weights g (metric_stage_key p.stage) mw hmw
            positivity
          · rw [mul_zero]
      _ ≤ 100 := by
          by_cases htot : total_factor_sum metrics weights g (metric_stage_key p.stage) > 0
          · simp only [if_pos htot]
            have hrw : ((included_metrics metrics weights g (metric_stage_key p.stage)).map
                (fun mw => mw.2 / total_factor_sum metrics weights g (metric_stage_key p.stage) * 100)).sum
                = ((included_metrics metrics weights g (metric_stage_key p.stage)).map
                  (fun mw => Prod.snd mw * (100 / total_factor_sum metrics weights g (metric_stage_key p.stage)))).sum := by
              apply congrArg
              apply List.map_congr_left
              intro mw _
              rw [div_mul_eq_mul_div, mul_div_assoc]
            rw [hrw, List.sum_map_mul_right]
            show total_factor_sum metrics weights g (metric_stage_key p.stage)
              * (100 / total_factor_sum metrics weights g (metric_stage_key p.stage)) ≤ 100
            rw [mul_comm, div_mul_cancel₀ _ (ne_of_gt htot)]
          · simp only [if_neg htot]
            rw [sum_map_const_of _ _ 0 (fun mw _ => rfl)]
            norm_num

theorem round1_bounds (x : ℚ) (h0 : 0 ≤ x) (h1 : x ≤ 100) :
    0 ≤ round1 x ∧ round1 x ≤ 100 := by
  have hr0 : (0:ℤ) ≤ round (10 * x) := by
    rw [round_eq]
    apply Int.le_floor.mpr
    push_cast
    linarith
  have hr1 : round (10 * x) ≤ 1000 := by
    rw [round_eq]
    have hlt : (10 * x + 1 / 2 : ℚ) < 1001 := by linarith
    have hf : ((⌊(10 * x + 1 / 2 : ℚ)⌋ : ℤ) : ℚ) ≤ 10 * x + 1 / 2 := Int.floor_le _
    have hcast : ((⌊(10 * x + 1 / 2 : ℚ)⌋ : ℤ) : ℚ) < ((1001 : ℤ) : ℚ) := by
      push_cast
      linarith
    have : (⌊(10 * x + 1 / 2 : ℚ)⌋ : ℤ) < 1001 := by exact_mod_cast hcast
    omega
  constructor
  · unfold round1
    apply div_nonneg _ (by norm_num : (0:ℚ) ≤ 10)
    exact_mod_cast hr0
  · unfold round1
    rw [div_le_iff₀ (by norm_num : (0:ℚ) < 10)]
    have : ((round (10 * x) : ℤ) : ℚ) ≤ ((1000 : ℤ) : ℚ) := by exact_mod_cast hr1
    calc ((round (10 * x) : ℤ) : ℚ) ≤ 1000 := by exact_mod_cast this
      _ = 100 * 10 := by norm_num

theorem final_metric_invariant (db db' : List Metric) (d : Nat) (s : String) (gs : List Nat)
    (h : ∀ g, new_weight db' d s g = new_weight db d s g) (m : Metric) :
    final_metric db' d s gs m = final_metric db d s gs m := by
  unfold final_metric
  cases hl : lastMatch d s gs m with
  | none => rfl
  | some g => simp only [h]

/-! # Claim theorems -/

/-- C1 (counterexample): a bucket whose manual weights are each within
[0,100] but sum to 120 (metrics `ov1`, `ov2`) with one auto metric
(`ov3`) does not sum to 100 after rebalancing — the auto metric is
clamped to 0 and the bucket totals 120. -/
theorem C1_sum_invariant_counterexample :
    team_weight_sum (rebalance_credits [ov1, ov2, ov3] ov3) 0 "Pre" 1 ≠ 100 := by
  norm_num [rebalance_credits, run_groups, rebalance_group, autos, manuals, team_metrics,
    manual_sum, new_weight, bucket_auto, team_weight_sum, ov1, ov2, ov3]

/-- C1 (amended): after `rebalance_credits` runs on a metric, a touched
(department, stage, group) bucket with at least one auto metric sums to
exactly 100, provided the bucket's manual weights sum to at most 100 and
the bucket's group is the last group of the triggering metric's group
list that rewrites each of the bucket's auto metrics (no later-processed
group overwrites them). -/
theorem C1_sum_invariant_amended (db : List Metric) (cm : Metric) (g : Nat)
    (hms : manual_sum db cm.department cm.stage g ≤ 100)
    (hne : autos db cm.department cm.stage g ≠ [])
    (hlast : ∀ m ∈ autos db cm.department cm.stage g,
      lastMatch cm.department cm.stage cm.visible_to_groups m = some g) :
    team_weight_sum (rebalance_credits db cm) cm.department cm.stage g = 100 :=
  team_sum_core db cm g hms hne hlast

/-- C1 (witness): the scenario-2 bucket — one manual metric at 30 and
two autos — satisfies the amended hypotheses, and rebalancing brings its
total to 100. -/
theorem C1_sum_invariant_amended_witness :
    manual_sum [bal1, bal2, bal3] 0 "Pre" 1 ≤ 100 ∧
    autos [bal1, bal2, bal3] 0 "Pre" 1 ≠ [] ∧
    (∀ m ∈ autos [bal1, bal2, bal3] 0 "Pre" 1, lastMatch 0 "Pre" [1] m = some 1) ∧
    team_weight_sum (rebalance_credits [bal1, bal2, bal3] bal2) 0 "Pre" 1 = 100 := by
  have h1 : manual_sum [bal1, bal2, bal3] 0 "Pre" 1 ≤ 100 := by
    norm_num [manual_sum, manuals, team_metrics, bal1, bal2, bal3]
  have h2 : autos [bal1, bal2, bal3] 0 "Pre" 1 ≠ [] := by decide
  have h3 : ∀ m ∈ autos [bal1, bal2, bal3] 0 "Pre" 1, lastMatch 0 "Pre" [1] m = some 1 := by
    decide
  exact ⟨h1, h2, h3, C1_sum_invariant_amended [bal1, bal2, bal3] bal2 1 h1 h2 h3⟩

/-- C6: the weight computed by the rebalancer is `max(0, ...)` and hence
never negative, for every table and bucket; concretely, the scenario-3
bucket with manual weights 70 and 50 (summing to 120) and one auto
metric leaves that auto metric at 0, not −20. -/
theorem C6_auto_weights_nonnegative :
    (∀ (db : List Metric) (d : Nat) (s : String) (g : Nat), 0 ≤ new_weight db d s g) ∧
    (rebalance_credits [ov1, ov2, ov3] ov3).map (fun m => m.credit_weight) = [70, 50, 0] := by
  constructor
  · intro db d s g
    exact le_max_left 0 _
  · norm_num [rebalance_credits, run_groups, rebalance_group, autos, manuals, team_metrics,
      manual_sum, new_weight, bucket_auto, ov1, ov2, ov3]

/-- C7: rebalancing is idempotent — running `rebalance_credits` again on
the table it just produced (same manual weights, visibility and metric
set) changes nothing: every auto weight is recomputed to the value it
already holds. -/
theorem C7_rebalance_idempotent (db : List Metric) (cm : Metric) :
    rebalance_credits (rebalance_credits db cm) cm = rebalance_credits db cm := by
  have hWO := weight_only_final db cm.department cm.stage cm.visible_to_groups
  have hFIX := final_fixes_manuals db cm.department cm.stage cm.visible_to_groups
  rw [rebalance_credits_eq_map db cm,
    rebalance_credits_eq_map
      (db.map (final_metric db cm.department cm.stage cm.visible_to_groups)) cm]
  have hsame : ∀ m,
      final_metric (db.map (final_metric db cm.department cm.stage cm.visible_to_groups))
        cm.department cm.stage cm.visible_to_groups m
      = final_metric db cm.department cm.stage cm.visible_to_groups m :=
    final_metric_invariant db _ cm.department cm.stage cm.visible_to_groups
      (fun g => new_weight_map _ hWO hFIX db cm.department cm.stage g)
  calc (db.map (final_metric db cm.department cm.stage cm.visible_to_groups)).map
        (final_metric (db.map (final_metric db cm.department cm.stage cm.visible_to_groups))
          cm.department cm.stage cm.visible_to_groups)
      = (db.map (final_metric db cm.department cm.stage cm.visible_to_groups)).map
        (final_metric db cm.department cm.stage cm.visible_to_groups) := by
        apply List.map_congr_left
        intro m _
        exact hsame m
    _ = db.map (fun m => final_metric db cm.department cm.stage cm.visible_to_groups
          (final_metric db cm.department cm.stage cm.visible_to_groups m)) := by
        rw [List.map_map]
        rfl
    _ = db.map (final_metric db cm.department cm.stage cm.visible_to_groups) := by
        apply List.map_congr_left
        intro m _
        exact final_idem db cm.department cm.stage cm.visible_to_groups m

/-- C10: each Metric row carries one `credit_weight` shared by all
groups, and a full rebalancing run equals a single map assigning every
rewritten auto metric the weight computed for the **last** group of the
triggering metric's group list whose bucket holds it (`final_metric` /
`lastMatch`): each earlier group's computed value is overwritten.
Concretely, for the shared auto metric `sh1` (visible to groups 1 and
2): group 1's bucket computes 50, group 2's bucket computes 60, and
after the run `sh1` holds 60 — the value of the last group processed. -/
theorem C10_shared_auto_last_group_wins :
    (∀ (db : List Metric) (cm : Metric),
      rebalance_credits db cm
        = db.map (final_metric db cm.department cm.stage cm.visible_to_groups)) ∧
    new_weight [sh1, sh2, sh3] 0 "Pre" 1 = 50 ∧
    new_weight [sh1, sh2, sh3] 0 "Pre" 2 = 60 ∧
    (rebalance_credits [sh1, sh2, sh3] sh1).map (fun m => m.credit_weight) = [60, 50, 40] := by
  refine ⟨rebalance_credits_eq_map, ?_, ?_, ?_⟩ <;>
    norm_num [rebalance_credits, run_groups, rebalance_group, autos, manuals, team_metrics,
      manual_sum, new_weight, bucket_auto, sh1, sh2, sh3]

/-- C2 (counterexample): the stage text "Handover" contains the token
"handover" after normalization, yet the scorecard view's normalization
(`metric_stage_key`, which tests only "post", "exec", "ops") maps it to
Pre — refuting the claim that the scorecard engine treats "handover" as
a Post keyword.  (The leaderboard's `current_stage` does map it to
Post.) -/
theorem C2_stage_normalization_counterexample :
    occursIn "handover".toList (normStage "Handover") = true ∧
    metric_stage_key "Handover" = "Pre" ∧
    current_stage "Handover" = "Post" := by
  refine ⟨by decide, by decide, by decide⟩

/-- C2 (amended): the scorecard view's stage normalization tests only
{"post","exec","ops"} while the leaderboard's tests
{"post","exec","ops","handover"}: a normalized stage text containing
none of the first three tokens maps to Pre in the scorecard view even
when it contains "handover", which maps it to Post in the leaderboard;
both normalize "Post-Handover Review" to Post (via its "post") and
"Initial Login" to Pre. -/
theorem C2_stage_normalization_amended :
    (∀ s : String,
      occursIn "post".toList (normStage s) = false →
      occursIn "exec".toList (normStage s) = false →
      occursIn "ops".toList (normStage s) = false →
      metric_stage_key s = "Pre") ∧
    (∀ s : String,
      occursIn "handover".toList (normStage s) = true →
      current_stage s = "Post") ∧
    metric_stage_key "Post-Handover Review" = "Post" ∧
    metric_stage_key "Initial Login" = "Pre" ∧
    current_stage "Post-Handover Review" = "Post" ∧
    current_stage "Initial Login" = "Pre" := by
  refine ⟨?_, ?_, by decide, by decide, by decide, by decide⟩
  · intro s h1 h2 h3
    unfold metric_stage_key
    simp at h1 h2 h3
    simp [h1, h2, h3]
  · intro s h
    unfold current_stage
    simp at h
    simp [h]

/-- C2 (witness): "Brief Stage" contains none of the scorecard tokens
and maps to Pre; "Handover" contains "handover" and maps to Post in the
leaderboard. -/
theorem C2_stage_normalization_amended_witness :
    (occursIn "post".toList (normStage "Brief Stage") = false ∧
     occursIn "exec".toList (normStage "Brief Stage") = false ∧
     occursIn "ops".toList (normStage "Brief Stage") = false ∧
     metric_stage_key "Brief Stage" = "Pre") ∧
    (occursIn "handover".toList (normStage "Handover") = true ∧
     current_stage "Handover" = "Post") :=
  ⟨⟨by decide, by decide, by decide,
    C2_stage_normalization_amended.1 "Brief Stage" (by decide) (by decide) (by decide)⟩,
   ⟨by decide, C2_stage_normalization_amended.2.1 "Handover" (by decide)⟩⟩

/-- C3 (counterexample): `hidden1` has a `MetricWeight` row for group 1
(`w3x`) but is visible to no group.  The team `rebalance_credits`
collects for bucket (0, Pre, 1) omits it, while the claim's
weight-entry-based team contains it: the code's team is not "the metrics
with a weight entry for the group". -/
theorem C3_team_collection_counterexample :
    team_metrics [hidden1] 0 "Pre" 1 = [] ∧
    spec_team_by_weight [hidden1] [w3x] 0 "Pre" 1 = [hidden1] := by
  refine ⟨by decide, by decide⟩

/-- C3 (amended): the team collected per group is exactly the set of
metrics of the same (department, stage) that are *visible* to that group
(the `visible_to_groups` relation), independently of any MetricWeight
rows. -/
theorem C3_team_collection_amended (db : List Metric) (d : Nat) (s : String) (g : Nat)
    (m : Metric) :
    m ∈ team_metrics db d s g
      ↔ m ∈ db ∧ m.department = d ∧ m.stage = s ∧ g ∈ m.visible_to_groups := by
  unfold team_metrics
  simp [List.mem_filter, and_assoc]

/-- C8: for every included metric the raw progress is
`raw_value / threshold` when the threshold is positive, and otherwise 1
for a positive raw value and 0 for a non-positive one; in particular a
zero threshold with raw value 5 gives capped progress 1.0 and with raw
value 0 gives capped progress 0.0. -/
theorem C8_raw_progress_formula :
    (∀ v t : ℚ, 0 < t → raw_progress v t = v / t) ∧
    (∀ v t : ℚ, ¬ 0 < t → 0 < v → raw_progress v t = 1) ∧
    (∀ v t : ℚ, ¬ 0 < t → ¬ 0 < v → raw_progress v t = 0) ∧
    capped_progress 5 0 = 1 ∧
    capped_progress 0 0 = 0 := by
  refine ⟨?_, ?_, ?_, ?_, ?_⟩
  · intro v t ht
    unfold raw_progress
    rw [if_pos ht]
  · intro v t ht hv
    unfold raw_progress
    rw [if_neg ht, if_pos hv]
  · intro v t ht hv
    unfold raw_progress
    rw [if_neg ht, if_neg hv]
  · norm_num [capped_progress, raw_progress]
  · norm_num [capped_progress, raw_progress, min_def]

/-- C8 (witness): concrete instances of the three branches. -/
theorem C8_raw_progress_formula_witness :
    (0 < (2:ℚ) ∧ raw_progress 7 2 = 7 / 2) ∧
    (¬ 0 < (0:ℚ) ∧ 0 < (5:ℚ) ∧ raw_progress 5 0 = 1) ∧
    (¬ 0 < (0:ℚ) ∧ ¬ 0 < (0:ℚ) ∧ raw_progress 0 0 = 0) :=
  ⟨⟨by norm_num, C8_raw_progress_formula.1 7 2 (by norm_num)⟩,
   ⟨by norm_num, by norm_num, C8_raw_progress_formula.2.1 5 0 (by norm_num) (by norm_num)⟩,
   ⟨by norm_num, by norm_num, C8_raw_progress_formula.2.2.1 0 0 (by norm_num) (by norm_num)⟩⟩

/-- C9: when no user group matches the requested role by
case-insensitive substring search, the scorecard view returns the
distinct `groupNotFound` outcome (never an exception in the model, and a
different constructor from any computed score); when a group matches, it
returns a computed score. -/
theorem C9_group_not_found_distinct (groups : List UserGroup) (metrics : List Metric)
    (weights : List MetricWeight) (p : Project) (raw_role_param : String) :
    (find_user_group groups (search_term raw_role_param) = none →
      project_scorecard_view groups metrics weights p raw_role_param
        = ScorecardResult.groupNotFound (search_term raw_role_param)) ∧
    (∀ g, find_user_group groups (search_term raw_role_param) = some g →
      project_scorecard_view groups metrics weights p raw_role_param
        = ScorecardResult.ok g (project_total metrics weights g p)) ∧
    (∀ (role : String) (g : UserGroup) (total : ℚ),
      ScorecardResult.groupNotFound role ≠ ScorecardResult.ok g total) := by
  refine ⟨?_, ?_, ?_⟩
  · intro h
    simp only [project_scorecard_view]
    rw [h]
  · intro g h
    simp only [project_scorecard_view]
    rw [h]
  · intro role g total h
    cases h

/-- C9 (witness): with the single group `gID`, the role text "ZZZ"
matches nothing and yields `groupNotFound`; the role text "ID" matches
`gID` and yields a computed score. -/
theorem C9_group_not_found_distinct_witness :
    find_user_group [gID] (search_term "ZZZ") = none ∧
    project_scorecard_view [gID] [] [] projW "ZZZ"
      = ScorecardResult.groupNotFound (search_term "ZZZ") ∧
    find_user_group [gID] (search_term "ID") = some gID ∧
    project_scorecard_view [gID] [] [] projW "ID"
      = ScorecardResult.ok gID (project_total [] [] gID projW) := by
  have h1 : find_user_group [gID] (search_term "ZZZ") = none := by decide
  have h2 : find_user_group [gID] (search_term "ID") = some gID := by decide
  exact ⟨h1, (C9_group_not_found_distinct [gID] [] [] projW "ZZZ").1 h1,
    h2, (C9_group_not_found_distinct [gID] [] [] projW "ID").2.1 gID h2⟩

/-- C5 (counterexample): the claim quantifies over all project attribute
values, but a negative raw value (−5 against threshold 10) drives
`capped_progress` below 0, outside [0,1] — the code never clamps
negative progress. -/
theorem C5_capped_progress_counterexample : capped_progress (-5) 10 < 0 := by
  norm_num [capped_progress, raw_progress, min_def]

/-- C5 (amended): for nonnegative raw values — which is what ingestion
produces, every unparseable cell defaulting to 0.0 — capped progress
lies in [0,1] for every threshold, and consequently a project whose
numeric attributes are all nonnegative has `earned_score_total` and the
displayed `project_total` within [0,100] for every metric/weight
configuration and user group. -/
theorem C5_scorecard_bound_amended (metrics : List Metric) (weights : List MetricWeight)
    (g : UserGroup) (p : Project) (hattr : ∀ f, 0 ≤ p.attr f) :
    (∀ v t : ℚ, 0 ≤ v → 0 ≤ capped_progress v t ∧ capped_progress v t ≤ 1) ∧
    0 ≤ earned_score_total metrics weights g p ∧
    earned_score_total metrics weights g p ≤ 100 ∧
    0 ≤ project_total metrics weights g p ∧
    project_total metrics weights g p ≤ 100 := by
  have hb := earned_total_bounds metrics weights g p hattr
  have hr := round1_bounds _ hb.1 hb.2
  exact ⟨fun v t hv => ⟨capped_progress_nonneg v t hv, capped_progress_le_one v t⟩,
    hb.1, hb.2, hr.1, hr.2⟩

/-- C5 (witness): the witness project `projW` has nonnegative
attributes, and its scorecard total for `gID` against `wm1`/`ww4` lies
within [0,100]. -/
theorem C5_scorecard_bound_amended_witness :
    (∀ f, 0 ≤ projW.attr f) ∧
    0 ≤ project_total [wm1] ww4 gID projW ∧ project_total [wm1] ww4 gID projW ≤ 100 := by
  have hattr : ∀ f, 0 ≤ projW.attr f := by
    intro f
    unfold Project.attr projW
    cases h : List.find? (fun kv => kv.1 == f) [("moodboard", (5:ℚ))] with
    | none => simp [h]
    | some kv =>
      have hkv := List.mem_of_find?_eq_some h
      simp only [List.mem_singleton] at hkv
      subst hkv
      simp [h]
  have := C5_scorecard_bound_amended [wm1] ww4 gID projW hattr
  exact ⟨hattr, this.2.2.2.1, this.2.2.2.2⟩

/-- C4 (counterexample): with a weight configuration that is unique per
(metric, group) pair, the two scores still differ when a positively
weighted metric (`cm2`) lies outside the group's department: the
scorecard filters metrics by the group's department while the
leaderboard's `stage_totals` and per-project loop do not, so the
scorecard yields 100 and the leaderboard 50 for the same project. -/
theorem C4_leaderboard_scorecard_counterexample :
    (∀ w ∈ cw4, ∀ w' ∈ cw4,
      w.metric_id = w'.metric_id → w.user_group = w'.user_group → w = w') ∧
    leaderboard_project_score [cm1, cm2] cw4 gID proj4
      ≠ project_total [cm1, cm2] cw4 gID proj4 := by
  constructor
  · decide
  · have hs1 : metric_stage_key proj4.stage = "Pre" := by decide
    have hs2 : current_stage proj4.stage = "Pre" := by decide
    have hE : earned_score_total [cm1, cm2] cw4 gID proj4 = 100 := by
      simp only [earned_score_total, hs1]
      norm_num [included_metrics, total_factor_sum, points_earned, weight_obj, capped_progress,
        raw_progress, Project.attr, List.filterMap_cons, List.find?_cons, List.filter_cons,
        cm1, cm2, cw4, gID, proj4]
    have hL : leaderboard_raw_score [cm1, cm2] cw4 gID proj4 = 50 := by
      simp only [leaderboard_raw_score, hs2]
      norm_num [valid_metrics, stage_totals, weight_obj, capped_progress, raw_progress,
        Project.attr, List.filterMap_cons, List.find?_cons, List.filter_cons,
        show ((0:Nat) == 1) = false from rfl, show ((1:Nat) == 1) = true from rfl,
        show ((0:Nat) == 0) = true from rfl,
        show ("moodboard" == "ops_review") = false from rfl,
        show ("moodboard" == "moodboard") = true from rfl,
        cm1, cm2, cw4, gID, proj4]
    have h100 : round1 100 = 100 := by norm_num [round1, round_eq]
    have h50 : round1 50 = 50 := by norm_num [round1, round_eq]
    unfold leaderboard_project_score project_total
    rw [hE, hL, h100, h50]
    norm_num

/-- C4 (amended): the leaderboard's per-project score (shared
`stage_totals` denominator) equals the scorecard's `project_total`
(per-project `total_factor` denominator) whenever the weight
configuration is unique per (metric, group) pair, every positively
weighted metric for the group belongs to the group's department, and the
two views' stage normalizations agree on the project's stage text (they
differ exactly on texts whose only Post keyword is "handover"). -/
theorem C4_leaderboard_scorecard_amended (metrics : List Metric) (weights : List MetricWeight)
    (g : UserGroup) (p : Project)
    (huniq : ∀ w ∈ weights, ∀ w' ∈ weights,
      w.metric_id = w'.metric_id → w.user_group = w'.user_group → w = w')
    (hdept : ∀ m ∈ metrics, ∀ w ∈ weights,
      w.metric_id = m.id → w.user_group = g.id → 0 < w.factor → m.department = g.department)
    (hstage : metric_stage_key p.stage = current_stage p.stage) :
    leaderboard_project_score metrics weights g p = project_total metrics weights g p := by
  unfold leaderboard_project_score project_total
  rw [raw_scores_agree metrics weights g p huniq hdept hstage]

/-- C4 (witness): a one-metric, one-weight, same-department
configuration satisfies all three amended hypotheses, and the two scores
agree on the witness project. -/
theorem C4_leaderboard_scorecard_amended_witness :
    (∀ w ∈ ww4, ∀ w' ∈ ww4,
      w.metric_id = w'.metric_id → w.user_group = w'.user_group → w = w') ∧
    (∀ m ∈ [wm1], ∀ w ∈ ww4,
      w.metric_id = m.id → w.user_group = gID.id → 0 < w.factor →
        m.department = gID.department) ∧
    metric_stage_key projW.stage = current_stage projW.stage ∧
    leaderboard_project_score [wm1] ww4 gID projW = project_total [wm1] ww4 gID projW := by
  have h1 : ∀ w ∈ ww4, ∀ w' ∈ ww4,
      w.metric_id = w'.metric_id → w.user_group = w'.user_group → w = w' := by decide
  have h2 : ∀ m ∈ [wm1], ∀ w ∈ ww4,
      w.metric_id = m.id → w.user_group = gID.id → 0 < w.factor →
        m.department = gID.department := by decide
  have h3 : metric_stage_key projW.stage = current_stage projW.stage := by decide
  exact ⟨h1, h2, h3, C4_leaderboard_scorecard_amended [wm1] ww4 gID projW h1 h2 h3⟩
